import Mathlib

/-!
Verification of the manga-translation pipeline in `src/main.py`.

The development shallowly embeds the pure content of the script:
Python strings are `String` (lists of characters), pixel coordinates are
`Int`, the PIL canvas is a trace of operations, and the external
collaborators (OCR word-character regex, the font file, text measurement,
Arabic reshaping, the translation service) are parameters of the
corresponding functions.
-/

namespace AlKitab

/-! ### Python string primitives used by the script -/

/-- Characters of a string with leading and trailing whitespace removed:
the model of Python `str.strip()`. -/
def stripChars (l : List Char) : List Char :=
  ((l.dropWhile Char.isWhitespace).reverse.dropWhile Char.isWhitespace).reverse

/-- Python `s.strip()`. -/
def pyStrip (s : String) : String := ⟨stripChars s.data⟩

/-- Python `s.lower()` (character-wise lowering). -/
def pyLower (s : String) : String := ⟨s.data.map Char.toLower⟩

/-- Python `s.isspace()`: nonempty and all whitespace. -/
def pyIsSpace (s : String) : Bool := !s.data.isEmpty && s.data.all Char.isWhitespace

/-- Containment of `need` as a contiguous run inside a character list:
the model of Python `need in hay`. -/
def containsChars (need : List Char) : List Char → Bool
  | [] => need.isEmpty
  | c :: rest => need.isPrefixOf (c :: rest) || containsChars need rest

/-- Python `need in hay` on strings. -/
def pyContains (hay need : String) : Bool := containsChars need.data hay.data

/-- An ASCII Latin letter, the character class `[A-Za-z]` of the script's
`re.sub(r'[A-Za-z]', '', ...)`. -/
def isLatinLetter (c : Char) : Bool := (decide ('A' ≤ c) && decide (c ≤ 'Z')) || (decide ('a' ≤ c) && decide (c ≤ 'z'))

/-- Python `re.sub(r'[A-Za-z]', '', s)`: delete every ASCII letter. -/
def stripLatin (s : String) : String := ⟨s.data.filter (fun c => !isLatinLetter c)⟩

/-- Helper for `pyWords`: scans the characters, accumulating the current
word (reversed). -/
def pyWordsAux : List Char → List Char → List String
  | [], acc => if acc.isEmpty then [] else [⟨acc.reverse⟩]
  | c :: cs, acc =>
    if c.isWhitespace then
      if acc.isEmpty then pyWordsAux cs [] else ⟨acc.reverse⟩ :: pyWordsAux cs []
    else pyWordsAux cs (c :: acc)

/-- Python `s.split()` with no argument: maximal runs of non-whitespace,
no empty tokens. -/
def pyWords (s : String) : List String := pyWordsAux s.data []

/-! ### OCR data model (`google_ocr`, lines 51-85)

The Google Vision response is modelled down to the level the script reads:
paragraphs holding words, each word holding its symbol texts and the
vertices of its bounding polygon.  The `\w` regex class of line 80 is an
external primitive and is passed in as a predicate `iswc`. -/

structure Vertex where
  x : Int
  y : Int
deriving DecidableEq

structure OCRWord where
  symbols : List String
  vertices : List Vertex
deriving DecidableEq

structure Paragraph where
  words : List OCRWord
deriving DecidableEq

structure Bbox where
  x0 : Int
  y0 : Int
  x1 : Int
  y1 : Int
deriving DecidableEq

/-- A sentence box as appended on line 83: `{"text": ..., "bbox": ...}`. -/
structure Region where
  text : String
  bbox : Bbox
deriving DecidableEq

/-- Line 70: `''.join([symbol.text for symbol in word.symbols])`. -/
def wordText (w : OCRWord) : String := ⟨(w.symbols.map String.data).flatten⟩

/-- Lines 66-71: `sentence_text` accumulated as `sentence_text += word_text + " "`. -/
def paragraphText (p : Paragraph) : String :=
  p.words.foldl (fun acc w => acc ++ wordText w ++ " ") ""

/-- Line 76: `clean_text = sentence_text.strip()`. -/
def cleanText (p : Paragraph) : String := pyStrip (paragraphText p)

/-- All bounding-polygon vertices of all words of the paragraph, in
traversal order (lines 72-74). -/
def vertsOf (p : Paragraph) : List Vertex := (p.words.map OCRWord.vertices).flatten

/-- `x_coords` of lines 67/73. -/
def xCoords (p : Paragraph) : List Int := (vertsOf p).map Vertex.x

/-- `y_coords` of lines 67/74. -/
def yCoords (p : Paragraph) : List Int := (vertsOf p).map Vertex.y

/-- Python `min` over a nonempty list (junk value `0` on `[]`, where the
script would raise `ValueError`). -/
def listMin : List Int → Int
  | [] => 0
  | [x] => x
  | x :: y :: xs => min x (listMin (y :: xs))

/-- Python `max` over a nonempty list (junk value `0` on `[]`). -/
def listMax : List Int → Int
  | [] => 0
  | [x] => x
  | x :: y :: xs => max x (listMax (y :: xs))

/-- Line 77: `area = (max(x)-min(x)) * (max(y)-min(y))`. -/
def paragraphArea (p : Paragraph) : Int :=
  (listMax (xCoords p) - listMin (xCoords p)) * (listMax (yCoords p) - listMin (yCoords p))

/-- The paragraph body of `google_ocr` (lines 66-83): `.error ()` models the
`ValueError` Python's `max()` raises on an empty coordinate list,
`.ok none` a paragraph dropped by the noise filter, and `.ok (some r)`
an appended sentence box. -/
def extractParagraph (iswc : Char → Bool) (p : Paragraph) : Except Unit (Option Region) :=
  if (vertsOf p).isEmpty then .error ()
  else if (cleanText p).length ≤ 6 ∧ 40000 < paragraphArea p then .ok none
  else if !((cleanText p).data.any iswc) then .ok none
  else .ok (some { text := cleanText p
                 , bbox := { x0 := listMin (xCoords p), y0 := listMin (yCoords p)
                           , x1 := listMax (xCoords p), y1 := listMax (yCoords p) } })

/-- Spec-side description of the region text, for comparison with
`cleanText`: the word tokens "joined by single spaces". -/
def spaceJoined : List String → String
  | [] => ""
  | [w] => w
  | w :: x :: ws => w ++ " " ++ spaceJoined (x :: ws)

/-! ### Translation (`translate_openl`, lines 19-48)

The OpenAI call is external; the function is parametrised by its outcome:
`.ok content` is a successful response (the script returns
`content.strip()`), `.error msg` an exception raised by the call. -/

def translate_openl (text : String) (response : Except String String) : String :=
  match response with
  | .ok content => pyStrip content
  | .error _ => text

/-! ### Translation validation (lines 106-111 and 142-148) -/

/-- The `invalid_phrases` list of lines 106-111, verbatim (note the last
entry is the only one holding uppercase letters, and entries 3 and 4 use
the typographic apostrophe U+2019, not ASCII `0x27`). -/
def invalid_phrases : List String :=
  [ "please provide the text", "cannot translate the text"
  , "doesn’t convey a clear meaning", "can’t assist with that"
  , "does not appear to be a coherent phrase"
  , "I'm sorry, but I can't assist with that."
  ]

/-- Lines 142-148: `none` means the region is skipped (erased only);
`some s` means the Latin-stripped text `s` is laid out and drawn. -/
def validateTranslation (translated : String) : Option String :=
  if invalid_phrases.any (fun p => pyContains (pyLower translated) p) then none
  else
    let stripped := pyStrip (stripLatin translated)
    if stripped = "" || pyIsSpace stripped then none
    else some stripped

/-! ### Word wrap (`wrap_text`, lines 88-102)

`draw.textbbox((0,0), t, font=font)[2]` is the font's measurement
primitive; it enters as a function `w : String → Int`. -/

/-- The loop of lines 92-101 over the remaining words, carrying the
emitted `lines` and the `current_line`. -/
def wrapAux (w : String → Int) (maxWidth : Int) : List String → List String → String → List String
  | [], lines, current => if current = "" then lines else lines ++ [current]
  | word :: rest, lines, current =>
    let test := if current = "" then word else current ++ " " ++ word
    if w test ≤ maxWidth then wrapAux w maxWidth rest lines test
    else wrapAux w maxWidth rest (lines ++ [current]) word

/-- `wrap_text(text, draw, font, max_width)` with the measurement
abstracted. -/
def wrap_text (w : String → Int) (maxWidth : Int) (text : String) : List String :=
  wrapAux w maxWidth (pyWords text) [] ""

/-! ### Shrink-to-fit layout (lines 150-180) -/

/-- Everything the layout code reads from its environment: `tryLoad s`
is `ImageFont.truetype(font_path, s)` (`none` when loading raises),
`defaultFont` is `ImageFont.load_default()`, `width f t` is
`draw.textbbox((0,0), t, font=f)[2]`, `lineHeightOf f` is
`draw.textbbox((0,0), "Test", font=f)[3]`, and `reshape` is
`get_display(arabic_reshaper.reshape(·))`. -/
structure RenderEnv (F : Type) where
  tryLoad : Nat → Option F
  defaultFont : F
  width : F → String → Int
  lineHeightOf : F → Int
  reshape : String → String

/-- Line 150: `font_size = 23`. -/
def max_font_size : Nat := 23

/-- Line 151: `min_font_size = 18`. -/
def min_font_size : Nat := 18

/-- The successive values of `font_size` in the `while font_size >= 18`
loop of lines 156-171, which decrements by 2. -/
def candidateSizes : Nat → List Nat
  | 0 => []
  | 1 => []
  | s + 2 => if min_font_size ≤ s + 2 then (s + 2) :: candidateSizes s else []

/-- Lines 157-160: the font used at a candidate size, falling back to the
default font when `truetype` raises. -/
def fontAt (E : RenderEnv F) (s : Nat) : F := (E.tryLoad s).getD E.defaultFont

/-- The wrapped lines at a candidate size (line 162). -/
def wrapAt (E : RenderEnv F) (text : String) (mw : Int) (s : Nat) : List String :=
  wrap_text (E.width (fontAt E s)) mw text

/-- Lines 165-166: `total_height = line_height * len(lines) + (len(lines) - 1) * 4`
at a candidate size.  The subtraction is Python `int` arithmetic, hence `Int`. -/
def blockHeightAt (E : RenderEnv F) (text : String) (mw : Int) (s : Nat) : Int :=
  let n : Int := (wrapAt E text mw s).length
  E.lineHeightOf (fontAt E s) * n + (n - 1) * 4

/-- The state carried out of the sizing search: the chosen font, the size
it was requested at, the reshaped lines, and the measured heights. -/
structure Layout (F : Type) where
  font : F
  size : Nat
  lines : List String
  lineHeight : Int
  totalHeight : Int
deriving DecidableEq

/-- The layout accepted when the candidate size `s` fits (lines 163-170). -/
def layoutAt (E : RenderEnv F) (text : String) (mw : Int) (s : Nat) : Layout F :=
  { font := fontAt E s, size := s
  , lines := (wrapAt E text mw s).map E.reshape
  , lineHeight := E.lineHeightOf (fontAt E s)
  , totalHeight := blockHeightAt E text mw s }

/-- The `while` loop of lines 156-171: accept the first candidate size
whose block height fits, else fall through. -/
def layoutLoop (E : RenderEnv F) (text : String) (mw mh : Int) : List Nat → Option (Layout F)
  | [] => none
  | s :: rest =>
    if blockHeightAt E text mw s ≤ mh then some (layoutAt E text mw s)
    else layoutLoop E text mw mh rest

/-- Lines 150-180 as a whole.  On the no-fit path (lines 173-178) the
script calls `ImageFont.truetype(font_path, min_font_size)` with no
`try`/`except`: an unloadable font raises there, modelled by `.error ()`. -/
def layoutRegion (E : RenderEnv F) (text : String) (mw mh : Int) : Except Unit (Layout F) :=
  match layoutLoop E text mw mh (candidateSizes max_font_size) with
  | some L => .ok L
  | none =>
    match E.tryLoad min_font_size with
    | none => .error ()
    | some f =>
      let ls := wrap_text (E.width f) mw text
      .ok { font := f, size := min_font_size
          , lines := ls.map E.reshape
          , lineHeight := E.lineHeightOf f
          , totalHeight := E.lineHeightOf f * (ls.length : Int) + ((ls.length : Int) - 1) * 4 }

/-! ### Renderer (`erase_sentences_from_image`, lines 105-190)

The PIL canvas is modelled as the trace of mutating operations performed
on it, in order. -/

inductive Color where
  | white
  | black
deriving DecidableEq

/-- One canvas mutation: `draw.rectangle([(x0,y0),(x1,y1)], fill=c)` or
`draw.text((x,y), s, fill=c, font=...)`. -/
inductive CanvasOp where
  | fillRect (x0 y0 x1 y1 : Int) (c : Color)
  | drawText (x y : Int) (s : String) (c : Color)
deriving DecidableEq

/-- Is the operation a rectangle fill (an erasure)? -/
def CanvasOp.isErase : CanvasOp → Bool
  | .fillRect .. => true
  | .drawText .. => false

/-- Is the operation a text draw? -/
def CanvasOp.isDraw : CanvasOp → Bool
  | .fillRect .. => false
  | .drawText .. => true

/-- Line 116: `padding_x, padding_y = 12, 10`. -/
def padding_x : Int := 12

/-- Line 116. -/
def padding_y : Int := 10

/-- The padding applied identically in both loops (lines 119-123 and
131-135): grow by the padding, clamping the left/top edge at 0. -/
def paddedBbox (b : Bbox) : Bbox :=
  { x0 := max 0 (b.x0 - padding_x)
  , y0 := max 0 (b.y0 - padding_y)
  , x1 := b.x1 + padding_x
  , y1 := b.y1 + padding_y }

/-- One iteration of the erase loop (lines 118-124): paint the padded
box solid white. -/
def eraseOp (b : Region) : CanvasOp :=
  .fillRect (paddedBbox b.bbox).x0 (paddedBbox b.bbox).y0
    (paddedBbox b.bbox).x1 (paddedBbox b.bbox).y1 Color.white

/-- Line 138: `if max_width < 10 or max_height < 10: continue`, where the
widths are those of the padded box (lines 136-137). -/
def drawSizeGuard (b : Bbox) : Bool :=
  decide ((paddedBbox b).x1 - (paddedBbox b).x0 < 10) ||
    decide ((paddedBbox b).y1 - (paddedBbox b).y0 < 10)

/-- The inner loop of lines 183-187: draw each reshaped line centered
horizontally, stepping `current_y` by `line_height + 4`.  Python `//` is
floor division, hence `Int.fdiv`. -/
def drawLines (w : String → Int) (x0 maxW lineHeight : Int) : List String → Int → List CanvasOp
  | [], _ => []
  | line :: rest, y =>
    .drawText (x0 + (Int.fdiv (maxW - w line) 2)) y line Color.black
      :: drawLines w x0 maxW lineHeight rest (y + lineHeight + 4)

/-- One iteration of the draw loop (lines 126-187) for one sentence box:
the canvas operations it performs, or `.error ()` when the unprotected
`truetype` call of line 174 raises.  `tr` is the already-degraded
translator (`translate_openl` composed with the actual service call). -/
def processRegion (E : RenderEnv F) (tr : String → String) (b : Region) :
    Except Unit (List CanvasOp) :=
  let text := pyStrip b.text
  if text = "" || pyIsSpace text then .ok []
  else if drawSizeGuard b.bbox then .ok []
  else
    match validateTranslation (tr text) with
    | none => .ok []
    | some stripped =>
      let pb := paddedBbox b.bbox
      let maxW := pb.x1 - pb.x0
      let maxH := pb.y1 - pb.y0
      match layoutRegion E stripped maxW maxH with
      | .error e => .error e
      | .ok L =>
        .ok (drawLines (E.width L.font) pb.x0 maxW L.lineHeight L.lines
              (pb.y0 + Int.fdiv (maxH - L.totalHeight) 2))

/-- The draw loop of lines 126-187 over all sentence boxes.  The Boolean
records whether the loop ran to completion; on an uncaught exception the
operations already performed stay on the canvas and the rest are lost. -/
def drawLoop (E : RenderEnv F) (tr : String → String) : List Region → List CanvasOp × Bool
  | [] => ([], true)
  | b :: rest =>
    match processRegion E tr b with
    | .error _ => ([], false)
    | .ok ops =>
      let done := drawLoop E tr rest
      (ops ++ done.1, done.2)

/-- `erase_sentences_from_image` for one image: the erase loop of lines
118-124 over every sentence box, then the draw loop. -/
def renderImage (E : RenderEnv F) (tr : String → String) (boxes : List Region) :
    List CanvasOp × Bool :=
  let d := drawLoop E tr boxes
  (boxes.map eraseOp ++ d.1, d.2)

/-! ### Helper definitions and concrete instances used by the theorems -/

/-- The string obtained by appending `t ++ " "` for each token `t`, the
closed form of the accumulation in `paragraphText`. -/
def trailJoin : List String → String
  | [] => ""
  | t :: ts => t ++ " " ++ trailJoin ts

/-- A concrete width measure (one pixel per character) for witnesses. -/
def charWidth (s : String) : Int := s.length

/-- A render environment whose fonts all load and where the line height
equals the requested size while every string measures width 0. -/
def sizeEnv : RenderEnv Nat :=
  { tryLoad := fun s => some s, defaultFont := 0
  , width := fun _ _ => 0, lineHeightOf := fun f => (f : Int), reshape := id }

/-- A render environment whose font file never loads and whose default
font is too tall for any box of height 10. -/
def noLoadTallEnv : RenderEnv Nat :=
  { tryLoad := fun _ => none, defaultFont := 7
  , width := fun _ _ => 0, lineHeightOf := fun _ => 100, reshape := id }

/-- A render environment whose font file never loads but whose default
font is short enough to fit. -/
def noLoadFitEnv : RenderEnv Nat :=
  { tryLoad := fun _ => none, defaultFont := 7
  , width := fun _ _ => 0, lineHeightOf := fun _ => 1, reshape := id }

/-- A one-word OCR paragraph ("Hi" on a 5-by-5 polygon) for witnesses. -/
def wParagraph : Paragraph :=
  { words := [ { symbols := ["H", "i"]
               , vertices := [⟨0, 0⟩, ⟨5, 0⟩, ⟨5, 5⟩, ⟨0, 5⟩] } ] }

/-- The region `wParagraph` extracts to. -/
def wRegion : Region := { text := "Hi", bbox := ⟨0, 0, 5, 5⟩ }

/-! ### String helper lemmas -/

theorem data_append (a b : String) : (a ++ b).data = a.data ++ b.data := rfl

theorem str_append_assoc (a b c : String) : a ++ b ++ c = a ++ (b ++ c) :=
  congrArg String.mk (List.append_assoc a.data b.data c.data)

theorem str_append_nil (a : String) : a ++ "" = a :=
  congrArg String.mk (List.append_nil a.data)

theorem stripChars_append_space (l : List Char) : stripChars (l ++ [' ']) = stripChars l := by
  unfold stripChars
  rcases h : l.dropWhile Char.isWhitespace with _ | ⟨a, as⟩
  · rw [List.dropWhile_append, h]
    simp
  · rw [List.dropWhile_append, h]
    simp only [List.isEmpty_cons, Bool.false_eq_true, if_false, List.reverse_append,
      List.reverse_cons, List.reverse_nil, List.nil_append, List.singleton_append,
      List.dropWhile_cons]
    simp [Char.isWhitespace]

theorem pyStrip_append_space (s : String) : pyStrip (s ++ " ") = pyStrip s :=
  congrArg String.mk (stripChars_append_space s.data)

theorem foldl_words_trailJoin (ws : List OCRWord) (acc : String) :
    ws.foldl (fun a w => a ++ wordText w ++ " ") acc = acc ++ trailJoin (ws.map wordText) := by
  induction ws generalizing acc with
  | nil => simp [trailJoin, str_append_nil]
  | cons w ws ih =>
    rw [List.foldl_cons, ih]
    simp only [List.map_cons, trailJoin, str_append_assoc]

theorem trailJoin_eq_spaceJoined (ts : List String) (h : ts ≠ []) :
    trailJoin ts = spaceJoined ts ++ " " := by
  induction ts with
  | nil => exact absurd rfl h
  | cons t ts ih =>
    rcases ts with _ | ⟨u, us⟩
    · simp [trailJoin, spaceJoined, str_append_nil]
    · rw [show trailJoin (t :: u :: us) = t ++ " " ++ trailJoin (u :: us) from rfl,
        ih (by simp),
        show spaceJoined (t :: u :: us) = t ++ " " ++ spaceJoined (u :: us) from rfl]
      simp only [str_append_assoc]

theorem cleanText_eq_spaceJoined (p : Paragraph) :
    cleanText p = pyStrip (spaceJoined (p.words.map wordText)) := by
  unfold cleanText paragraphText
  rw [foldl_words_trailJoin,
    show ("" : String) ++ trailJoin (p.words.map wordText) =
      trailJoin (p.words.map wordText) from congrArg String.mk (List.nil_append _)]
  rcases h : p.words.map wordText with _ | ⟨t, ts⟩
  · rfl
  · rw [trailJoin_eq_spaceJoined _ (by simp), pyStrip_append_space]

/-! ### min/max helper lemmas -/

theorem listMin_le {l : List Int} {x : Int} (hx : x ∈ l) : listMin l ≤ x := by
  induction l with
  | nil => cases hx
  | cons a as ih =>
    rcases as with _ | ⟨b, bs⟩
    · rw [List.mem_singleton.1 hx]; exact le_refl a
    · rcases List.mem_cons.1 hx with rfl | h
      · exact min_le_left _ _
      · exact le_trans (min_le_right _ _) (ih h)

theorem le_listMax {l : List Int} {x : Int} (hx : x ∈ l) : x ≤ listMax l := by
  induction l with
  | nil => cases hx
  | cons a as ih =>
    rcases as with _ | ⟨b, bs⟩
    · rw [List.mem_singleton.1 hx]; exact le_refl a
    · rcases List.mem_cons.1 hx with rfl | h
      · exact le_max_left _ _
      · exact le_trans (ih h) (le_max_right _ _)

theorem listMin_mem {l : List Int} (h : l ≠ []) : listMin l ∈ l := by
  induction l with
  | nil => exact absurd rfl h
  | cons a as ih =>
    rcases as with _ | ⟨b, bs⟩
    · exact List.mem_singleton.2 rfl
    · rw [show listMin (a :: b :: bs) = min a (listMin (b :: bs)) from rfl]
      rcases min_choice a (listMin (b :: bs)) with hc | hc
      · rw [hc]; exact List.mem_cons_self _ _
      · rw [hc]; exact List.mem_cons_of_mem _ (ih (by simp))

theorem listMax_mem {l : List Int} (h : l ≠ []) : listMax l ∈ l := by
  induction l with
  | nil => exact absurd rfl h
  | cons a as ih =>
    rcases as with _ | ⟨b, bs⟩
    · exact List.mem_singleton.2 rfl
    · rw [show listMax (a :: b :: bs) = max a (listMax (b :: bs)) from rfl]
      rcases max_choice a (listMax (b :: bs)) with hc | hc
      · rw [hc]; exact List.mem_cons_self _ _
      · rw [hc]; exact List.mem_cons_of_mem _ (ih (by simp))

/-! ### Wrap, extraction and trace helper lemmas -/

theorem wrapAux_invariant (w : String → Int) (maxW : Int) (allWords : List String) :
    ∀ (ws lines : List String) (current : String),
      (∀ L ∈ lines, w L ≤ maxW ∨ L ∈ allWords) →
      (w current ≤ maxW ∨ current ∈ allWords) →
      (∀ x ∈ ws, x ∈ allWords) →
      ∀ L ∈ wrapAux w maxW ws lines current, w L ≤ maxW ∨ L ∈ allWords := by
  intro ws
  induction ws with
  | nil =>
    intro lines current hlines hcur _ L hL
    unfold wrapAux at hL
    by_cases hc : current = ""
    · rw [if_pos hc] at hL
      exact hlines L hL
    · rw [if_neg hc] at hL
      rcases List.mem_append.1 hL with h | h
      · exact hlines L h
      · rw [List.mem_singleton.1 h]
        exact hcur
  | cons word rest ih =>
    intro lines current hlines hcur hws L hL
    unfold wrapAux at hL
    set test := if current = "" then word else current ++ " " ++ word with htest
    by_cases hfit : w test ≤ maxW
    · rw [if_pos hfit] at hL
      exact ih lines test hlines (Or.inl hfit) (fun x hx => hws x (List.mem_cons_of_mem _ hx)) L hL
    · rw [if_neg hfit] at hL
      refine ih (lines ++ [current]) word ?_ ?_ (fun x hx => hws x (List.mem_cons_of_mem _ hx)) L hL
      · intro M hM
        rcases List.mem_append.1 hM with h | h
        · exact hlines M h
        · rw [List.mem_singleton.1 h]
          exact hcur
      · exact Or.inr (hws word (List.mem_cons_self _ _))

theorem extractParagraph_some {iswc : Char → Bool} {p : Paragraph} {r : Region}
    (h : extractParagraph iswc p = .ok (some r)) :
    vertsOf p ≠ [] ∧ r.text = cleanText p ∧
      r.bbox = { x0 := listMin (xCoords p), y0 := listMin (yCoords p)
               , x1 := listMax (xCoords p), y1 := listMax (yCoords p) } := by
  unfold extractParagraph at h
  by_cases h1 : (vertsOf p).isEmpty
  · rw [if_pos h1] at h
    cases h
  · rw [if_neg h1] at h
    by_cases h2 : (cleanText p).length ≤ 6 ∧ 40000 < paragraphArea p
    · rw [if_pos h2] at h
      cases h
    · rw [if_neg h2] at h
      by_cases h3 : !((cleanText p).data.any iswc)
      · rw [if_pos h3] at h
        cases h
      · rw [if_neg h3] at h
        refine ⟨fun hnil => h1 (by rw [hnil]; rfl), ?_, ?_⟩
        · cases h
          rfl
        · cases h
          rfl

theorem drawLines_all_draw (w : String → Int) (x0 maxW lh : Int) :
    ∀ (ls : List String) (y : Int), ∀ o ∈ drawLines w x0 maxW lh ls y, o.isDraw = true := by
  intro ls
  induction ls with
  | nil =>
    intro y o ho
    cases ho
  | cons line rest ih =>
    intro y o ho
    rcases List.mem_cons.1 ho with rfl | h
    · rfl
    · exact ih _ o h

theorem processRegion_all_draw {F : Type} (E : RenderEnv F) (tr : String → String)
    (b : Region) {ops : List CanvasOp} (h : processRegion E tr b = .ok ops) :
    ∀ o ∈ ops, o.isDraw = true := by
  unfold processRegion at h
  by_cases h1 : (pyStrip b.text = "" || pyIsSpace (pyStrip b.text)) = true
  · rw [if_pos h1] at h
    cases h
    intro o ho
    cases ho
  · rw [if_neg h1] at h
    by_cases h2 : drawSizeGuard b.bbox = true
    · rw [if_pos h2] at h
      cases h
      intro o ho
      cases ho
    · rw [if_neg h2] at h
      rcases hv : validateTranslation (tr (pyStrip b.text)) with _ | stripped
      · rw [hv] at h
        cases h
        intro o ho
        cases ho
      · rw [hv] at h
        dsimp only at h
        rcases hl : layoutRegion E stripped ((paddedBbox b.bbox).x1 - (paddedBbox b.bbox).x0)
            ((paddedBbox b.bbox).y1 - (paddedBbox b.bbox).y0) with e | L
        · rw [hl] at h
          cases h
        · rw [hl] at h
          cases h
          exact drawLines_all_draw _ _ _ _ _ _

theorem drawLoop_all_draw {F : Type} (E : RenderEnv F) (tr : String → String) :
    ∀ (boxes : List Region), ∀ o ∈ (drawLoop E tr boxes).1, o.isDraw = true := by
  intro boxes
  induction boxes with
  | nil =>
    intro o ho
    cases ho
  | cons b rest ih =>
    intro o ho
    unfold drawLoop at ho
    rcases hp : processRegion E tr b with e | ops
    · rw [hp] at ho
      cases ho
    · rw [hp] at ho
      rcases List.mem_append.1 ho with h | h
      · exact processRegion_all_draw E tr b hp o h
      · exact ih o h

theorem layoutLoop_nil {F : Type} (E : RenderEnv F) (text : String) (mw mh : Int) :
    layoutLoop E text mw mh [] = none := rfl

theorem layoutLoop_cons {F : Type} (E : RenderEnv F) (text : String) (mw mh : Int)
    (s : Nat) (rest : List Nat) :
    layoutLoop E text mw mh (s :: rest) =
      if blockHeightAt E text mw s ≤ mh then some (layoutAt E text mw s)
      else layoutLoop E text mw mh rest := rfl

theorem layoutRegion_eq_of_load {F : Type} (E : RenderEnv F) (text : String) (mw mh : Int)
    (f : F) (hf : E.tryLoad 18 = some f) :
    layoutRegion E text mw mh =
      if blockHeightAt E text mw 23 ≤ mh then .ok (layoutAt E text mw 23)
      else if blockHeightAt E text mw 21 ≤ mh then .ok (layoutAt E text mw 21)
      else if blockHeightAt E text mw 19 ≤ mh then .ok (layoutAt E text mw 19)
      else .ok (layoutAt E text mw 18) := by
  unfold layoutRegion
  rw [show candidateSizes max_font_size = [23, 21, 19] from rfl,
    layoutLoop_cons, layoutLoop_cons, layoutLoop_cons, layoutLoop_nil]
  by_cases h23 : blockHeightAt E text mw 23 ≤ mh
  · rw [if_pos h23, if_pos h23]
  · rw [if_neg h23, if_neg h23]
    by_cases h21 : blockHeightAt E text mw 21 ≤ mh
    · rw [if_pos h21, if_pos h21]
    · rw [if_neg h21, if_neg h21]
      by_cases h19 : blockHeightAt E text mw 19 ≤ mh
      · rw [if_pos h19, if_pos h19]
      · rw [if_neg h19, if_neg h19]
        show (match E.tryLoad min_font_size with
          | none => Except.error ()
          | some f => _) = _
        rw [show E.tryLoad min_font_size = some f from hf]
        unfold layoutAt blockHeightAt wrapAt
        rw [show fontAt E 18 = f by rw [fontAt, hf]; rfl]
        rfl

/-- C1 (counterexample): with a font environment whose block height at
size `s` is exactly `s`, a box of height 22 makes size 22 qualify under
the claim's candidate set `{18,20,22,23}` (and 23 not qualify), yet the
code returns size 21 — a size outside the claimed set. -/
theorem shrink_to_fit_claimed_sizes_false :
    (layoutRegion sizeEnv "a" 100 22).toOption.map Layout.size = some 21 ∧
    blockHeightAt sizeEnv "a" 100 22 ≤ 22 ∧
    ¬ blockHeightAt sizeEnv "a" 100 23 ≤ 22 ∧
    (21 : Nat) ∉ [18, 20, 22, 23] :=
  ⟨rfl, by decide, by decide, by decide⟩

/-- C1 (amended): the shrink-to-fit search tries the font sizes 23, 21,
19 — stepping by 2 from 23 while at least the minimum 18, so 18, 20 and
22 are never tried — and returns the first (hence largest) of these whose
computed block height `line_height * n_lines + 4 * (n_lines - 1)` is at
most the box height; if none of 23, 21, 19 qualifies it returns the
minimum size 18 and accepts the vertical overflow. -/
theorem shrink_to_fit_step_sizes {F : Type} (E : RenderEnv F) (text : String) (mw mh : Int)
    (hload : ∀ s, (E.tryLoad s).isSome) :
    candidateSizes max_font_size = [23, 21, 19] ∧
    ∃ L, layoutRegion E text mw mh = .ok L ∧
      L.totalHeight = blockHeightAt E text mw L.size ∧
      ((blockHeightAt E text mw 23 ≤ mh ∧ L.size = 23) ∨
       (¬ blockHeightAt E text mw 23 ≤ mh ∧ blockHeightAt E text mw 21 ≤ mh ∧ L.size = 21) ∨
       (¬ blockHeightAt E text mw 23 ≤ mh ∧ ¬ blockHeightAt E text mw 21 ≤ mh ∧
         blockHeightAt E text mw 19 ≤ mh ∧ L.size = 19) ∨
       (¬ blockHeightAt E text mw 23 ≤ mh ∧ ¬ blockHeightAt E text mw 21 ≤ mh ∧
         ¬ blockHeightAt E text mw 19 ≤ mh ∧ L.size = 18)) := by
  obtain ⟨f, hf⟩ := Option.isSome_iff_exists.1 (hload 18)
  have heq := layoutRegion_eq_of_load E text mw mh f hf
  refine ⟨rfl, ?_⟩
  by_cases h23 : blockHeightAt E text mw 23 ≤ mh
  · rw [heq, if_pos h23]
    exact ⟨layoutAt E text mw 23, rfl, rfl, Or.inl ⟨h23, rfl⟩⟩
  · by_cases h21 : blockHeightAt E text mw 21 ≤ mh
    · rw [heq, if_neg h23, if_pos h21]
      exact ⟨layoutAt E text mw 21, rfl, rfl, Or.inr (Or.inl ⟨h23, h21, rfl⟩)⟩
    · by_cases h19 : blockHeightAt E text mw 19 ≤ mh
      · rw [heq, if_neg h23, if_neg h21, if_pos h19]
        exact ⟨layoutAt E text mw 19, rfl, rfl, Or.inr (Or.inr (Or.inl ⟨h23, h21, h19, rfl⟩))⟩
      · rw [heq, if_neg h23, if_neg h21, if_neg h19]
        exact ⟨layoutAt E text mw 18, rfl, rfl, Or.inr (Or.inr (Or.inr ⟨h23, h21, h19, rfl⟩))⟩

/-- C1 (witness): the amended theorem applied to a concrete environment
where every font loads and a box tall enough for size 23. -/
theorem shrink_to_fit_step_sizes_witness :
    (∀ s, (sizeEnv.tryLoad s).isSome) ∧
    (candidateSizes max_font_size = [23, 21, 19] ∧
     ∃ L, layoutRegion sizeEnv "a" 100 1000 = .ok L ∧
       L.totalHeight = blockHeightAt sizeEnv "a" 100 L.size ∧
       ((blockHeightAt sizeEnv "a" 100 23 ≤ 1000 ∧ L.size = 23) ∨
        (¬ blockHeightAt sizeEnv "a" 100 23 ≤ 1000 ∧ blockHeightAt sizeEnv "a" 100 21 ≤ 1000 ∧
          L.size = 21) ∨
        (¬ blockHeightAt sizeEnv "a" 100 23 ≤ 1000 ∧ ¬ blockHeightAt sizeEnv "a" 100 21 ≤ 1000 ∧
          blockHeightAt sizeEnv "a" 100 19 ≤ 1000 ∧ L.size = 19) ∨
        (¬ blockHeightAt sizeEnv "a" 100 23 ≤ 1000 ∧ ¬ blockHeightAt sizeEnv "a" 100 21 ≤ 1000 ∧
          ¬ blockHeightAt sizeEnv "a" 100 19 ≤ 1000 ∧ L.size = 18))) :=
  ⟨fun _ => rfl, shrink_to_fit_step_sizes sizeEnv "a" 100 1000 (fun _ => rfl)⟩

/-- C7 (counterexample): a region whose font file cannot be loaded and
whose box fits no candidate size does not fall back to the default font:
the unprotected `truetype` reload on the no-fit path raises
(`.error ()`), contradicting the claim that the fallback applies on that
path too. -/
theorem font_fallback_nofit_error :
    layoutRegion noLoadTallEnv "a" 100 10 = .error () ∧
    noLoadTallEnv.tryLoad 18 = none :=
  ⟨rfl, rfl⟩

/-- C7 (amended): when the requested font cannot be loaded, every
iteration of the sizing search falls back to the default built-in font,
and a size accepted by the search yields a layout using the default
font; but on the path taken when no candidate size fits the box, the
font is reloaded at the minimum size with no fallback, so the load
failure propagates as an error. -/
theorem font_fallback_paths {F : Type} (E : RenderEnv F) (text : String) (mw mh : Int)
    (hnone : ∀ s, E.tryLoad s = none) :
    ((blockHeightAt E text mw 23 ≤ mh ∨ blockHeightAt E text mw 21 ≤ mh ∨
        blockHeightAt E text mw 19 ≤ mh) →
      ∃ L, layoutRegion E text mw mh = .ok L ∧ L.font = E.defaultFont) ∧
    ((¬ blockHeightAt E text mw 23 ≤ mh ∧ ¬ blockHeightAt E text mw 21 ≤ mh ∧
        ¬ blockHeightAt E text mw 19 ≤ mh) →
      layoutRegion E text mw mh = .error ()) := by
  have hfont : ∀ s, fontAt E s = E.defaultFont := by
    intro s
    rw [fontAt, hnone s]
    rfl
  constructor
  · intro hfit
    by_cases h23 : blockHeightAt E text mw 23 ≤ mh
    · refine ⟨layoutAt E text mw 23, ?_, hfont 23⟩
      unfold layoutRegion
      rw [show candidateSizes max_font_size = [23, 21, 19] from rfl, layoutLoop_cons, if_pos h23]
    · by_cases h21 : blockHeightAt E text mw 21 ≤ mh
      · refine ⟨layoutAt E text mw 21, ?_, hfont 21⟩
        unfold layoutRegion
        rw [show candidateSizes max_font_size = [23, 21, 19] from rfl,
          layoutLoop_cons, if_neg h23, layoutLoop_cons, if_pos h21]
      · by_cases h19 : blockHeightAt E text mw 19 ≤ mh
        · refine ⟨layoutAt E text mw 19, ?_, hfont 19⟩
          unfold layoutRegion
          rw [show candidateSizes max_font_size = [23, 21, 19] from rfl,
            layoutLoop_cons, if_neg h23, layoutLoop_cons, if_neg h21, layoutLoop_cons, if_pos h19]
        · rcases hfit with h | h | h
          · exact absurd h h23
          · exact absurd h h21
          · exact absurd h h19
  · rintro ⟨h23, h21, h19⟩
    unfold layoutRegion
    rw [show candidateSizes max_font_size = [23, 21, 19] from rfl,
      layoutLoop_cons, if_neg h23, layoutLoop_cons, if_neg h21, layoutLoop_cons, if_neg h19,
      layoutLoop_nil]
    show (match E.tryLoad min_font_size with
      | none => Except.error ()
      | some f => _) = _
    rw [hnone min_font_size]

/-- C7 (witness): the amended theorem applied to an environment whose
font never loads but whose default font fits at the first candidate. -/
theorem font_fallback_paths_witness :
    (∀ s, noLoadFitEnv.tryLoad s = none) ∧
    ∃ L, layoutRegion noLoadFitEnv "a" 100 50 = .ok L ∧ L.font = noLoadFitEnv.defaultFont :=
  ⟨fun _ => rfl,
    (font_fallback_paths noLoadFitEnv "a" 100 50 (fun _ => rfl)).1 (Or.inl (by decide))⟩

/-- C2: an OCR paragraph (with at least one vertex, where the script does
not crash) yields an entry in the extractor's output iff it is NOT the
case that its trimmed text has length at most 6 and its bbox area exceeds
40000, AND its text holds at least one word-character; a dropped
paragraph produces no output entry (`.ok none`). -/
theorem noise_filter_membership (iswc : Char → Bool) (p : Paragraph)
    (hv : vertsOf p ≠ []) :
    ((∃ r, extractParagraph iswc p = .ok (some r)) ↔
      (¬ ((cleanText p).length ≤ 6 ∧ 40000 < paragraphArea p) ∧
        (cleanText p).data.any iswc = true)) ∧
    (¬ (¬ ((cleanText p).length ≤ 6 ∧ 40000 < paragraphArea p) ∧
        (cleanText p).data.any iswc = true) →
      extractParagraph iswc p = .ok none) := by
  have hne : (vertsOf p).isEmpty = false := by
    rcases hverts : vertsOf p with _ | _
    · exact absurd hverts hv
    · rfl
  unfold extractParagraph
  rw [hne]
  simp only [Bool.false_eq_true, if_false]
  by_cases h2 : (cleanText p).length ≤ 6 ∧ 40000 < paragraphArea p
  · rw [if_pos h2]
    constructor
    · constructor
      · rintro ⟨r, hr⟩
        cases hr
      · rintro ⟨hn, _⟩
        exact absurd h2 hn
    · intro _
      rfl
  · rw [if_neg h2]
    by_cases h3 : (cleanText p).data.any iswc = true
    · have hcond : ¬ ((!(cleanText p).data.any iswc) = true) := by
        rw [h3]
        simp
      rw [if_neg hcond]
      constructor
      · constructor
        · intro _
          exact ⟨h2, h3⟩
        · intro _
          exact ⟨_, rfl⟩
      · intro hcon
        exact absurd ⟨h2, h3⟩ hcon
    · have h3f : (cleanText p).data.any iswc = false := by
        cases hb : (cleanText p).data.any iswc
        · rfl
        · exact absurd hb h3
      have hcond : (!(cleanText p).data.any iswc) = true := by
        rw [h3f]
        rfl
      rw [if_pos hcond]
      constructor
      · constructor
        · rintro ⟨r, hr⟩
          cases hr
        · rintro ⟨_, ha⟩
          exact absurd ha h3
      · intro _
        rfl

/-- C2 (witness): the membership characterisation at a concrete
one-word paragraph. -/
theorem noise_filter_membership_witness :
    vertsOf wParagraph ≠ [] ∧
    (((∃ r, extractParagraph Char.isAlphanum wParagraph = .ok (some r)) ↔
       (¬ ((cleanText wParagraph).length ≤ 6 ∧ 40000 < paragraphArea wParagraph) ∧
         (cleanText wParagraph).data.any Char.isAlphanum = true)) ∧
     (¬ (¬ ((cleanText wParagraph).length ≤ 6 ∧ 40000 < paragraphArea wParagraph) ∧
         (cleanText wParagraph).data.any Char.isAlphanum = true) →
       extractParagraph Char.isAlphanum wParagraph = .ok none)) :=
  ⟨by decide, noise_filter_membership Char.isAlphanum wParagraph (by decide)⟩

/-- C9: every emitted region's bbox components bound the x/y coordinates
of every vertex of every word of the paragraph and are attained by some
vertex — i.e. the bbox is exactly (min x, min y, max x, max y) — and the
region's text equals the word tokens joined by single spaces and
trimmed. -/
theorem region_bbox_and_text (iswc : Char → Bool) (p : Paragraph) (r : Region)
    (h : extractParagraph iswc p = .ok (some r)) :
    (∀ v ∈ vertsOf p,
      r.bbox.x0 ≤ v.x ∧ v.x ≤ r.bbox.x1 ∧ r.bbox.y0 ≤ v.y ∧ v.y ≤ r.bbox.y1) ∧
    r.bbox.x0 ∈ xCoords p ∧ r.bbox.x1 ∈ xCoords p ∧
    r.bbox.y0 ∈ yCoords p ∧ r.bbox.y1 ∈ yCoords p ∧
    r.text = pyStrip (spaceJoined (p.words.map wordText)) := by
  obtain ⟨hne, htext, hbox⟩ := extractParagraph_some h
  have hxne : xCoords p ≠ [] := by
    intro hx
    exact hne (List.map_eq_nil_iff.1 hx)
  have hyne : yCoords p ≠ [] := by
    intro hy
    exact hne (List.map_eq_nil_iff.1 hy)
  refine ⟨?_, ?_, ?_, ?_, ?_, ?_⟩
  · intro v hv
    rw [hbox]
    exact ⟨listMin_le (List.mem_map_of_mem _ hv), le_listMax (List.mem_map_of_mem _ hv),
      listMin_le (List.mem_map_of_mem _ hv), le_listMax (List.mem_map_of_mem _ hv)⟩
  · rw [hbox]
    exact listMin_mem hxne
  · rw [hbox]
    exact listMax_mem hxne
  · rw [hbox]
    exact listMin_mem hyne
  · rw [hbox]
    exact listMax_mem hyne
  · rw [htext, cleanText_eq_spaceJoined]

/-- C9 (witness): the bbox/text characterisation at a concrete
one-word paragraph and its extracted region. -/
theorem region_bbox_and_text_witness :
    extractParagraph Char.isAlphanum wParagraph = .ok (some wRegion) ∧
    ((∀ v ∈ vertsOf wParagraph,
       wRegion.bbox.x0 ≤ v.x ∧ v.x ≤ wRegion.bbox.x1 ∧
         wRegion.bbox.y0 ≤ v.y ∧ v.y ≤ wRegion.bbox.y1) ∧
     wRegion.bbox.x0 ∈ xCoords wParagraph ∧ wRegion.bbox.x1 ∈ xCoords wParagraph ∧
     wRegion.bbox.y0 ∈ yCoords wParagraph ∧ wRegion.bbox.y1 ∈ yCoords wParagraph ∧
     wRegion.text = pyStrip (spaceJoined (wParagraph.words.map wordText))) :=
  ⟨rfl, region_bbox_and_text Char.isAlphanum wParagraph wRegion rfl⟩

/-- C10: a region produced by the extractor from non-negative vertex
coordinates has a padded box of width at least 12 and height at least 10,
so the draw-phase guard skipping boxes under 10 pixels never fires on
extractor output. -/
theorem draw_guard_unreachable (iswc : Char → Bool) (p : Paragraph) (r : Region)
    (hnn : ∀ v ∈ vertsOf p, 0 ≤ v.x ∧ 0 ≤ v.y)
    (h : extractParagraph iswc p = .ok (some r)) :
    12 ≤ (paddedBbox r.bbox).x1 - (paddedBbox r.bbox).x0 ∧
    10 ≤ (paddedBbox r.bbox).y1 - (paddedBbox r.bbox).y0 ∧
    drawSizeGuard r.bbox = false := by
  obtain ⟨hne, _, hbox⟩ := extractParagraph_some h
  have hxne : xCoords p ≠ [] := by
    intro hx
    exact hne (List.map_eq_nil_iff.1 hx)
  have hyne : yCoords p ≠ [] := by
    intro hy
    exact hne (List.map_eq_nil_iff.1 hy)
  have hx0 : 0 ≤ r.bbox.x0 := by
    rw [hbox]
    obtain ⟨v, hv, hvx⟩ := List.mem_map.1 (listMin_mem hxne)
    exact le_of_le_of_eq (hnn v hv).1 hvx
  have hy0 : 0 ≤ r.bbox.y0 := by
    rw [hbox]
    obtain ⟨v, hv, hvy⟩ := List.mem_map.1 (listMin_mem hyne)
    exact le_of_le_of_eq (hnn v hv).2 hvy
  have hx01 : r.bbox.x0 ≤ r.bbox.x1 := by
    rw [hbox]
    exact listMin_le (listMax_mem hxne)
  have hy01 : r.bbox.y0 ≤ r.bbox.y1 := by
    rw [hbox]
    exact listMin_le (listMax_mem hyne)
  have hw : 12 ≤ (paddedBbox r.bbox).x1 - (paddedBbox r.bbox).x0 := by
    simp only [paddedBbox, padding_x, padding_y]
    rcases le_total (r.bbox.x0 - 12) 0 with hc | hc
    · rw [max_eq_left hc]
      omega
    · rw [max_eq_right hc]
      omega
  have hh : 10 ≤ (paddedBbox r.bbox).y1 - (paddedBbox r.bbox).y0 := by
    simp only [paddedBbox, padding_x, padding_y]
    rcases le_total (r.bbox.y0 - 10) 0 with hc | hc
    · rw [max_eq_left hc]
      omega
    · rw [max_eq_right hc]
      omega
  have hgw : ¬ ((paddedBbox r.bbox).x1 - (paddedBbox r.bbox).x0 < 10) := by omega
  have hgh : ¬ ((paddedBbox r.bbox).y1 - (paddedBbox r.bbox).y0 < 10) := by omega
  refine ⟨hw, hh, ?_⟩
  simp [drawSizeGuard, hgw, hgh]

/-- C10 (witness): the padded-size bound at a concrete paragraph with
non-negative coordinates. -/
theorem draw_guard_unreachable_witness :
    (∀ v ∈ vertsOf wParagraph, 0 ≤ v.x ∧ 0 ≤ v.y) ∧
    extractParagraph Char.isAlphanum wParagraph = .ok (some wRegion) ∧
    (12 ≤ (paddedBbox wRegion.bbox).x1 - (paddedBbox wRegion.bbox).x0 ∧
     10 ≤ (paddedBbox wRegion.bbox).y1 - (paddedBbox wRegion.bbox).y0 ∧
     drawSizeGuard wRegion.bbox = false) :=
  ⟨by decide, rfl, draw_guard_unreachable Char.isAlphanum wParagraph wRegion (by decide) rfl⟩

/-- C3: wrap_text never emits a line measuring wider than `max_width`
except a line that is one of the input's words, emitted unmodified on its
own (which happens exactly when the word alone measures wider).  The only
assumption on the measure is that the empty string fits, which holds of
any real text-measurement primitive. -/
theorem wrap_text_width_bound (w : String → Int) (maxW : Int) (text : String)
    (h0 : w "" ≤ maxW) :
    ∀ L ∈ wrap_text w maxW text, maxW < w L → L ∈ pyWords text := by
  intro L hL hgt
  rcases wrapAux_invariant w maxW (pyWords text) (pyWords text) [] ""
      (by intro M hM; cases hM) (Or.inl h0) (fun x hx => hx) L hL with hle | hmem
  · exact absurd hgt (not_lt.2 hle)
  · exact hmem

/-- C3 (witness): the width bound at a concrete measure and text. -/
theorem wrap_text_width_bound_witness :
    charWidth "" ≤ 5 ∧
    ∀ L ∈ wrap_text charWidth 5 "ab cd", 5 < charWidth L → L ∈ pyWords "ab cd" :=
  ⟨by decide, wrap_text_width_bound charWidth 5 "ab cd" (by decide)⟩

/-- C4: the canvas trace of one image splits into a prefix of erase
(white-rectangle) operations followed only by text draws: every erase for
every region precedes every draw, two distinct passes never interleaved. -/
theorem erase_before_draw {F : Type} (E : RenderEnv F) (tr : String → String)
    (boxes : List Region) :
    ∃ es ds, (renderImage E tr boxes).1 = es ++ ds ∧
      (∀ o ∈ es, o.isErase = true) ∧ (∀ o ∈ ds, o.isDraw = true) := by
  refine ⟨boxes.map eraseOp, (drawLoop E tr boxes).1, rfl, ?_, drawLoop_all_draw E tr boxes⟩
  intro o ho
  obtain ⟨b, _, rfl⟩ := List.mem_map.1 ho
  rfl

/-- C5 (code bug): the refusal phrase
`"I'm sorry, but I can't assist with that."` is in the script's own
`invalid_phrases` list and contains an invalid phrase case-insensitively
(itself), so the claim says the validator skips it; but the code compares
the raw phrases against the lowercased text, the capitalised phrase can
never match, no other phrase matches (the similar shorter entry uses the
typographic apostrophe), and the validator accepts the region: its
punctuation residue is laid out and drawn. -/
theorem refusal_phrase_not_skipped :
    "I'm sorry, but I can't assist with that." ∈ invalid_phrases ∧
    (invalid_phrases.any fun p =>
      pyContains (pyLower "I'm sorry, but I can't assist with that.") (pyLower p)) = true ∧
    (invalid_phrases.any fun p =>
      pyContains (pyLower "I'm sorry, but I can't assist with that.") p) = false ∧
    (validateTranslation "I'm sorry, but I can't assist with that.").isSome = true :=
  ⟨by decide, by decide, by decide, by decide⟩

/-- C6: the erased rectangle for every region is exactly the bbox grown
by 12px horizontally and 10px vertically, clamped at 0 on the left/top,
painted solid white; in particular bbox (10,10,110,40) erases
(0,0)-(122,50). -/
theorem erase_rectangle_padding :
    (∀ b : Region, eraseOp b = .fillRect (max 0 (b.bbox.x0 - 12)) (max 0 (b.bbox.y0 - 10))
        (b.bbox.x1 + 12) (b.bbox.y1 + 10) Color.white) ∧
    eraseOp { text := "Hello world", bbox := ⟨10, 10, 110, 40⟩ } =
      .fillRect 0 0 122 50 Color.white :=
  ⟨fun _ => rfl, rfl⟩

/-- C8: when the translation call raises, `translate_openl` returns the
original input text unchanged, and the failure is not propagated (the
result is a plain string either way); a successful call returns the
stripped response content. -/
theorem translate_failure_returns_input (text msg : String) :
    translate_openl text (.error msg) = text ∧
    ∀ content, translate_openl text (.ok content) = pyStrip content :=
  ⟨rfl, fun _ => rfl⟩

end AlKitab
